import Mathlib

/-!
Verification of the sales-coach frontend against its specification.

The definitions below are shallow embeddings of the TypeScript source:

* JavaScript numbers that only ever hold small integers are embedded as
  integers; arithmetic over scores is embedded in the rationals, the exact
  idealization of the float arithmetic the code performs.
* ISO datetime strings that the code immediately converts with
  `new Date(s).getTime()` are embedded as their epoch-millisecond value.
* Objects are embedded as structures with the same field names; the key
  list produced by serializing an object mirrors `JSON.stringify` on the
  corresponding TypeScript interface.
-/

namespace SalesCoach

/-- Embeds the `AssessmentScores` interface of
`frontend/src/types/representatives.ts`: the seven SPIN dimension scores,
each an integer in 1..5. -/
structure AssessmentScores where
  situation : ℤ
  problem : ℤ
  implication : ℤ
  need_payoff : ℤ
  flow : ℤ
  tone : ℤ
  engagement : ℤ
deriving DecidableEq, Repr

/-- Embeds `calculateCompositeScore` (identical copies in
`TranscriptsTable`, `AssessmentHeader`, `representatives/page.tsx`, and
`calculateAverageScore` in `UploadTranscriptDialog.tsx`): the sum of the
seven dimension scores divided by 7. -/
def calculateCompositeScore (s : AssessmentScores) : ℚ :=
  ((s.situation + s.problem + s.implication + s.need_payoff
      + s.flow + s.tone + s.engagement : ℤ) : ℚ) / 7

/-- The seven dimension scores of an assessment as a list, in the order the
code destructures them. -/
def dimensionScores (s : AssessmentScores) : List ℤ :=
  [s.situation, s.problem, s.implication, s.need_payoff, s.flow, s.tone,
    s.engagement]

/-- A JSON value, the universe of data JavaScript passes around after
`JSON.parse` and before `JSON.stringify`.  Numbers are embedded as
rationals. -/
inductive JVal where
  | null : JVal
  | bool (b : Bool) : JVal
  | num (q : ℚ) : JVal
  | str (s : String) : JVal
  | arr (items : List JVal) : JVal
  | obj (fields : List (String × JVal)) : JVal

/-- Embeds the `AssessmentCoaching` interface of
`frontend/src/types/representatives.ts`. -/
structure AssessmentCoaching where
  summary : String
  wins : List String
  gaps : List String
  next_actions : List String

/-- Embeds the `AssessRequest` interface of the frontend API module
(`TechnicalFeatures.tsx`): the body sent to `POST /assess`. -/
structure AssessRequest where
  transcript : String
  metadata : List (String × String)

/-- Embeds the `AssessResponse` interface of the frontend API module: the
body of a successful `POST /assess` reply. -/
structure AssessResponse where
  assessment_id : ℤ
  scores : AssessmentScores
  coaching : AssessmentCoaching

/-- Serializes a string map the way `JSON.stringify` serializes a
`Record` of strings. -/
def metadataJson (m : List (String × String)) : JVal :=
  JVal.obj (m.map (fun p => (p.1, JVal.str p.2)))

/-- Serializes `AssessmentScores` with the field order of the interface. -/
def scoresJson (s : AssessmentScores) : JVal :=
  JVal.obj [("situation", JVal.num s.situation), ("problem", JVal.num s.problem),
    ("implication", JVal.num s.implication),
    ("need_payoff", JVal.num s.need_payoff), ("flow", JVal.num s.flow),
    ("tone", JVal.num s.tone), ("engagement", JVal.num s.engagement)]

/-- Serializes `AssessmentCoaching` with the field order of the interface. -/
def coachingJson (c : AssessmentCoaching) : JVal :=
  JVal.obj [("summary", JVal.str c.summary),
    ("wins", JVal.arr (c.wins.map JVal.str)),
    ("gaps", JVal.arr (c.gaps.map JVal.str)),
    ("next_actions", JVal.arr (c.next_actions.map JVal.str))]

/-- The `JSON.stringify(data)` body that `assessTranscript` sends: the
key/value pairs of an `AssessRequest`, in interface field order. -/
def assessRequestJson (r : AssessRequest) : List (String × JVal) :=
  [("transcript", JVal.str r.transcript), ("metadata", metadataJson r.metadata)]

/-- The top-level keys of the serialized scoring request. -/
def assessRequestKeys (r : AssessRequest) : List String :=
  (assessRequestJson r).map Prod.fst

/-- The key/value pairs of a serialized `AssessResponse`. -/
def assessResponseJson (r : AssessResponse) : List (String × JVal) :=
  [("assessment_id", JVal.num r.assessment_id),
    ("scores", scoresJson r.scores), ("coaching", coachingJson r.coaching)]

/-- The top-level keys of a successful scoring response. -/
def assessResponseKeys (r : AssessResponse) : List String :=
  (assessResponseJson r).map Prod.fst

/-- Embeds the per-dimension metric record of the `EvaluationRun` interface
in `TechnicalFeatures.tsx`. -/
structure DimensionMetrics where
  pearson_r : ℚ
  qwk : ℚ
  plus_minus_one_accuracy : ℚ

/-- Serializes `DimensionMetrics` with the field order of the interface. -/
def dimensionMetricsJson (m : DimensionMetrics) : List (String × JVal) :=
  [("pearson_r", JVal.num m.pearson_r), ("qwk", JVal.num m.qwk),
    ("plus_minus_one_accuracy", JVal.num m.plus_minus_one_accuracy)]

/-- The keys of a per-dimension metrics record. -/
def dimensionMetricsKeys (m : DimensionMetrics) : List String :=
  (dimensionMetricsJson m).map Prod.fst

/-- Embeds the `EvaluationRun` interface of the frontend API module.
Fields typed `T | null` become `Option T` serialized as JSON null when
absent; the two optional (`?`) LangSmith fields are omitted from the
serialization when not set, as `JSON.stringify` omits `undefined`. -/
structure EvaluationRun where
  id : String
  prompt_template_id : String
  dataset_id : Option String
  experiment_name : Option String
  num_examples : ℤ
  macro_pearson_r : Option ℚ
  macro_qwk : Option ℚ
  macro_plus_minus_one : Option ℚ
  per_dimension_metrics : List (String × DimensionMetrics)
  model_name : Option String
  runtime_seconds : Option ℚ
  langsmith_url : Option String
  langsmith_experiment_id : Option String
  created_at : String

/-- Serializes a nullable string field. -/
def nullableStr (v : Option String) : JVal :=
  match v with
  | some s => JVal.str s
  | none => JVal.null

/-- Serializes a nullable number field. -/
def nullableNum (v : Option ℚ) : JVal :=
  match v with
  | some q => JVal.num q
  | none => JVal.null

/-- Serializes an optional field: present only when set. -/
def optionalStrField (k : String) (v : Option String) : List (String × JVal) :=
  match v with
  | some s => [(k, JVal.str s)]
  | none => []

/-- The key/value pairs of a serialized `EvaluationRun`, in interface field
order. -/
def evaluationRunJson (r : EvaluationRun) : List (String × JVal) :=
  [("id", JVal.str r.id),
    ("prompt_template_id", JVal.str r.prompt_template_id),
    ("dataset_id", nullableStr r.dataset_id),
    ("experiment_name", nullableStr r.experiment_name),
    ("num_examples", JVal.num r.num_examples),
    ("macro_pearson_r", nullableNum r.macro_pearson_r),
    ("macro_qwk", nullableNum r.macro_qwk),
    ("macro_plus_minus_one", nullableNum r.macro_plus_minus_one),
    ("per_dimension_metrics",
      JVal.obj (r.per_dimension_metrics.map
        (fun p => (p.1, JVal.obj (dimensionMetricsJson p.2))))),
    ("model_name", nullableStr r.model_name),
    ("runtime_seconds", nullableNum r.runtime_seconds)]
  ++ optionalStrField "langsmith_url" r.langsmith_url
  ++ optionalStrField "langsmith_experiment_id" r.langsmith_experiment_id
  ++ [("created_at", JVal.str r.created_at)]

/-- The top-level keys of a serialized evaluation run record. -/
def evaluationRunKeys (r : EvaluationRun) : List String :=
  (evaluationRunJson r).map Prod.fst

/-- Substring containment, embedding the JavaScript `String.includes`. -/
def strContainsB (s pat : String) : Bool :=
  decide (List.IsInfix pat.toList s.toList)

/-- Embeds the JavaScript `String.trim`: removes whitespace from both ends
of a string. -/
def jsTrim (s : String) : String :=
  String.mk
    (((s.toList.dropWhile Char.isWhitespace).reverse.dropWhile
        Char.isWhitespace).reverse)

/-- Embeds the JavaScript `String.toLowerCase` on the ASCII range. -/
def jsToLower (s : String) : String :=
  String.mk (s.toList.map Char.toLower)

/-- Embeds the JavaScript `String.split` on a newline separator: the list
of chunks between newline characters, with empty chunks kept. -/
def splitOnNewline : List Char → List (List Char)
  | [] => [[]]
  | '\n' :: rest => [] :: splitOnNewline rest
  | c :: rest =>
    match splitOnNewline rest with
    | [] => [[c]]
    | l :: ls => (c :: l) :: ls

/-- Embeds the `PromptTemplateCreate` payload the template editor saves. -/
structure PromptTemplateCreate where
  name : String
  version : String
  system_prompt : String
  user_template : String

/-- The editor state of the template dialog in
`settings/prompt-templates/page.tsx`: the four text fields bound to the
form. -/
structure TemplateEditorState where
  name : String
  version : String
  systemPrompt : String
  userTemplate : String

/-- Outcome of the editor save handler: either a validation error shown to
the user (nothing is persisted) or the payload passed to `onSave`. -/
inductive SaveResult where
  | error (msg : String) : SaveResult
  | saved (data : PromptTemplateCreate) : SaveResult

/-- Embeds `handleSave` of the template editor dialog
(`settings/prompt-templates/page.tsx`): four guard clauses that set an
error and return before anything is persisted, then the trimmed payload
handed to `onSave`. -/
def templateEditorHandleSave (st : TemplateEditorState) : SaveResult :=
  if jsTrim st.name = "" then SaveResult.error "Name is required"
  else if jsTrim st.systemPrompt = "" then
    SaveResult.error "System prompt is required"
  else if jsTrim st.userTemplate = "" then
    SaveResult.error "User template is required"
  else if !(strContainsB st.userTemplate "{transcript}") then
    SaveResult.error "User template must contain {transcript} placeholder"
  else
    SaveResult.saved
      ⟨jsTrim st.name,
        if jsTrim st.version = "" then "v1" else jsTrim st.version,
        st.systemPrompt, st.userTemplate⟩

/-- The dataset source kind of the `EvaluationDataset` interface. -/
inductive DatasetSourceType where
  | csv : DatasetSourceType
  | langsmith : DatasetSourceType
  | database : DatasetSourceType
deriving DecidableEq

/-- Embeds the `EvaluationDataset` interface of the frontend API module. -/
structure EvaluationDataset where
  id : String
  organization_id : String
  name : String
  description : Option String
  source_type : DatasetSourceType
  source_path : Option String
  num_examples : ℤ
  langsmith_dataset_name : Option String
  langsmith_dataset_id : Option String
  created_at : String
  updated_at : String

/-- Embeds the `EvaluationDatasetUpdate` interface: every field optional,
absent fields are omitted from the PATCH body. -/
structure EvaluationDatasetUpdate where
  name : Option String
  description : Option String
  source_path : Option String

/-- Modelled from the spec: the backend PATCH handler for
`/evaluations/datasets/:id` is not part of the frontend sources; per the
spec a dataset is immutable once created except for administrative
rename/describe, so the handler applies exactly the fields present in the
update body and leaves every other column untouched. -/
def applyDatasetUpdate (d : EvaluationDataset) (u : EvaluationDatasetUpdate) :
    EvaluationDataset :=
  { d with
    name := u.name.getD d.name
    description :=
      match u.description with
      | some s => some s
      | none => d.description
    source_path :=
      match u.source_path with
      | some p => some p
      | none => d.source_path }

/-- Embeds the edit branch of `handleSave` in
`settings/evaluations/page.tsx`: when an id is present the page sends a
PATCH carrying only the name and the description, never the file. -/
def datasetPageEdit (d : EvaluationDataset) (name : String)
    (description : Option String) : EvaluationDataset :=
  applyDatasetUpdate d ⟨some name, description, none⟩

/-- A prompt template row as the activation operation sees it: identity,
owning tenant and the active flag. -/
structure PromptTemplateRec where
  id : ℕ
  organization_id : ℕ
  is_active : Bool
deriving DecidableEq

/-- Modelled from the spec: the backend activation endpoint
(`POST /prompt-templates/:id/activate`) is not part of the frontend
sources; per the spec, activating one template atomically makes it the
active template of its tenant and deactivates the previously active one,
leaving other tenants untouched.  This is the per-row transition. -/
def activateStep (org target : ℕ) (t : PromptTemplateRec) :
    PromptTemplateRec :=
  if t.organization_id = org then { t with is_active := t.id == target }
  else t

/-- Modelled from the spec: the whole-store effect of activating template
`target` for tenant `org`. -/
def activateTemplate (store : List PromptTemplateRec) (org target : ℕ) :
    List PromptTemplateRec :=
  store.map (activateStep org target)

/-- Number of active templates of a tenant in a store. -/
def countActive (store : List PromptTemplateRec) (org : ℕ) : ℕ :=
  store.countP (fun t => t.organization_id == org && t.is_active)

/-- Number of templates of the tenant that the activation of `target`
switches from active to inactive. -/
def deactivatedCount (store : List PromptTemplateRec) (org target : ℕ) : ℕ :=
  store.countP
    (fun t => t.organization_id == org && t.is_active && !(t.id == target))

/-- Embeds the template card of `settings/prompt-templates/page.tsx`: the
Activate button is rendered only for templates that are not active. -/
def activateButtonShown (t : PromptTemplateRec) : Bool :=
  !t.is_active

/-- Arithmetic mean of a list of rationals. -/
def listMean (l : List ℚ) : ℚ :=
  l.sum / (l.length : ℚ)

/-- Sum of squared deviations from the mean; zero exactly when the list has
zero variance. -/
def centeredSumSquares (l : List ℚ) : ℚ :=
  (l.map (fun x => (x - listMean l) ^ 2)).sum

/-- Sum of products of centered pairs, the numerator of the Pearson
correlation coefficient. -/
def pearsonNumerator (xs ys : List ℚ) : ℚ :=
  ((xs.zip ys).map (fun p => (p.1 - listMean xs) * (p.2 - listMean ys))).sum

/-- Modelled from the spec: the MetricsEngine lives in the backend
(`app/services/evaluation_metrics.py`), which is not among the sources;
per the spec it computes the standard Pearson correlation coefficient and
explicitly guards the division, returning 0 (not NaN) when either array
has zero variance. -/
noncomputable def pearsonR (xs ys : List ℚ) : ℝ :=
  if centeredSumSquares xs = 0 ∨ centeredSumSquares ys = 0 then 0
  else
    (pearsonNumerator xs ys : ℝ)
      / (Real.sqrt (centeredSumSquares xs) * Real.sqrt (centeredSumSquares ys))

/-- Modelled from the spec: metric functions reject empty or
mismatched-length input pairs with a MetricInputError instead of silently
coercing them. -/
noncomputable def pearsonMetric (xs ys : List ℚ) : Except String ℝ :=
  if xs.length = 0 ∨ xs.length ≠ ys.length then
    Except.error "MetricInputError"
  else Except.ok (pearsonR xs ys)

/-- An assessment row as the detail page and the representatives table see
it.  The `created_at` ISO string is embedded as its epoch-millisecond
value, the number the code obtains with `new Date(s).getTime()`. -/
structure AssessmentRec where
  transcript_id : ℤ
  scores : AssessmentScores
  created_at : ℤ
deriving DecidableEq

/-- The comparator of the assessment detail page
(`transcripts/[id]/assessment/page.tsx`): `(a, b) => getTime(b) -
getTime(a)` orders by `created_at` descending. -/
def byCreatedAtDesc (a b : AssessmentRec) : Bool :=
  b.created_at ≤ a.created_at

/-- The `[...assessments].sort(...)` call of the detail page. -/
def sortAssessmentsDesc (l : List AssessmentRec) : List AssessmentRec :=
  l.mergeSort byCreatedAtDesc

/-- Embeds the selection in `fetchData` of the assessment detail page:
when the transcript has assessments, sort them by `created_at` descending
and display the first. -/
def selectLatestAssessment (l : List AssessmentRec) : Option AssessmentRec :=
  (sortAssessmentsDesc l).head?

/-- A transcript row as the representatives page sees it. -/
structure TranscriptRec where
  id : ℤ
  representative_id : Option String
deriving DecidableEq

/-- Embeds `QUEUE_THRESHOLD` of `representatives/page.tsx`. -/
def QUEUE_THRESHOLD : ℚ := 3

/-- The transcripts belonging to one representative
(`transcripts.filter(t => t.representative_id === rep.id)`). -/
def repTranscriptsFor (repId : String) (ts : List TranscriptRec) :
    List TranscriptRec :=
  ts.filter (fun t => t.representative_id == some repId)

/-- The assessments attached to a representative through its transcripts
(`assessments.filter(a => repTranscripts.some(t => t.id ===
a.transcript_id))`). -/
def repAssessmentsFor (repId : String) (ts : List TranscriptRec)
    (assessments : List AssessmentRec) : List AssessmentRec :=
  assessments.filter
    (fun a => (repTranscriptsFor repId ts).any (fun t => t.id == a.transcript_id))

/-- Embeds the `queueCount` computation of `representatives/page.tsx`: the
number of the representative's assessments whose composite score is below
the queue threshold. -/
def queueCount (repId : String) (ts : List TranscriptRec)
    (assessments : List AssessmentRec) : ℕ :=
  ((repAssessmentsFor repId ts assessments).filter
    (fun a => calculateCompositeScore a.scores < QUEUE_THRESHOLD)).length

/-- Embeds the `ParsedMessage` interface of `TranscriptViewer`
(`src/unnamed/part_011`).  Speaker and text hold whatever JavaScript value
the untyped code stored there; the plain-text parser only ever stores
strings. -/
structure ParsedMessage where
  speaker : JVal
  text : JVal
  isRep : Bool

/-- JavaScript property read on a value: a key of an object, otherwise
undefined (`none`).  Reading a property of `null` throws instead; that
case is modelled by `mkJsonMsgThrows`. -/
def jsGet (v : JVal) (k : String) : Option JVal :=
  match v with
  | JVal.obj fields => fields.lookup k
  | _ => none

/-- JavaScript truthiness of a possibly-undefined value. -/
def jsTruthy (v : Option JVal) : Bool :=
  match v with
  | none => false
  | some JVal.null => false
  | some (JVal.bool b) => b
  | some (JVal.num q) => !(q == 0)
  | some (JVal.str s) => !(s == "")
  | some (JVal.arr _) => true
  | some (JVal.obj _) => true

/-- The JavaScript `a || b` operator: `a` when truthy, else `b`. -/
def jsOr (a b : Option JVal) : Option JVal :=
  if jsTruthy a then a else b

/-- The `item.speaker_id || item.speaker` chain of the JSON branch. -/
def speakerValue (item : JVal) : Option JVal :=
  jsOr (jsGet item "speaker_id") (jsGet item "speaker")

/-- Whether the map callback of the JSON branch throws a TypeError on this
array element: reading a property of `null` throws, and so does calling
`toLowerCase` on a truthy value that is not a string.  The surrounding
`try` catches the error, so the whole JSON result is then discarded. -/
def mkJsonMsgThrows (item : JVal) : Bool :=
  match item with
  | JVal.null => true
  | _ =>
    match jsOr (speakerValue item) (some (JVal.str "")) with
    | some (JVal.str _) => false
    | _ => true

/-- The `isRep` flag of the JSON branch: the lowercased
`speaker_id || speaker || ""` value contains "rep". -/
def jsonIsRep (item : JVal) : Bool :=
  match jsOr (speakerValue item) (some (JVal.str "")) with
  | some (JVal.str s) => strContainsB (jsToLower s) "rep"
  | _ => false

/-- The message built for one element of a parsed JSON array. -/
def mkJsonMsg (item : JVal) : ParsedMessage :=
  { speaker := (jsOr (speakerValue item) (some (JVal.str "Unknown"))).getD JVal.null
    text :=
      (jsOr (jsOr (jsGet item "text") (jsGet item "content"))
        (some (JVal.str ""))).getD JVal.null
    isRep := jsonIsRep item }

/-- The bracket alternative of the line regex: an opening bracket, one or
more characters up to the first closing bracket, then a non-empty
remainder.  With backtracking, the remainder group captures everything
after the bracket; the code trims both groups afterwards. -/
def bracketTag (l : List Char) : Option (List Char × List Char) :=
  match l with
  | '[' :: rest =>
    match rest.dropWhile (fun c => !(c == ']')) with
    | ']' :: rest2 =>
      if (rest.takeWhile (fun c => !(c == ']'))).isEmpty then none
      else if rest2.isEmpty then none
      else some (rest.takeWhile (fun c => !(c == ']')), rest2)
    | _ => none
  | _ => none

/-- The colon alternative of the line regex: one or more non-colon
characters, a colon, then a non-empty remainder. -/
def colonTag (l : List Char) : Option (List Char × List Char) :=
  match l.dropWhile (fun c => !(c == ':')) with
  | ':' :: rest2 =>
    if (l.takeWhile (fun c => !(c == ':'))).isEmpty then none
    else if rest2.isEmpty then none
    else some (l.takeWhile (fun c => !(c == ':')), rest2)
  | _ => none

/-- The anchored alternation of the line regex
(`^(?:\[([^\]]+)\]|([^:]+):)\s*(.+)$`): the bracket form is tried first
and the regex engine falls back to the colon form when it fails. -/
def lineTag (l : List Char) : Option (List Char × List Char) :=
  match bracketTag l with
  | some r => some r
  | none => colonTag l

/-- The rep test of the plain-text branch: the lowercased trimmed speaker
contains "rep" or "sales". -/
def isRepSpeaker (sp : String) : Bool :=
  strContainsB (jsToLower sp) "rep" || strContainsB (jsToLower sp) "sales"

/-- The message built for a tagged line. -/
def mkTaggedMsg (sp txt : List Char) : ParsedMessage :=
  { speaker := JVal.str (jsTrim (String.mk sp))
    text := JVal.str (jsTrim (String.mk txt))
    isRep := isRepSpeaker (jsTrim (String.mk sp)) }

/-- The `+=` on the text of the last pushed message.  Only the string case
is reachable: the plain-text parser creates string texts exclusively. -/
def jvalAppendStr (v : JVal) (s : String) : JVal :=
  match v with
  | JVal.str t => JVal.str (t ++ s)
  | v => v

/-- Appends a continuation chunk to the text of the last message. -/
def appendToLastText : List ParsedMessage → String → List ParsedMessage
  | [], _ => []
  | [m], s => [{ m with text := jvalAppendStr m.text s }]
  | m :: rest, s => m :: appendToLastText rest s

/-- The loop body of the plain-text branch of `parseTranscript`: tagged
lines push a message, untagged non-blank lines continue the last message,
or open an "Unknown" message when none exists yet. -/
def processLines : List String → List ParsedMessage → List ParsedMessage
  | [], msgs => msgs
  | line :: rest, msgs =>
    match lineTag line.toList with
    | some (sp, txt) => processLines rest (msgs ++ [mkTaggedMsg sp txt])
    | none =>
      if jsTrim line = "" then processLines rest msgs
      else
        match msgs with
        | [] =>
          processLines rest
            [⟨JVal.str "Unknown", JVal.str (jsTrim line), false⟩]
        | _ :: _ => processLines rest (appendToLastText msgs (" " ++ jsTrim line))

/-- The `raw.split("\n").filter(line => line.trim())` of the plain-text
branch. -/
def nonEmptyLines (raw : String) : List String :=
  ((splitOnNewline raw.toList).map String.mk).filter
    (fun l => !(jsTrim l == ""))

/-- The plain-text branch of `parseTranscript`. -/
def parsePlainText (raw : String) : List ParsedMessage :=
  processLines (nonEmptyLines raw) []

/-- Embeds `parseTranscript` of `TranscriptViewer`.  `JSON.parse` is an
external runtime primitive, so its outcome is a parameter: `none` when it
throws, otherwise the parsed value.  When the value is an array whose map
callback throws on some element, the `try` block catches the error and the
plain-text branch runs on the raw string, exactly as in the source. -/
def parseTranscriptWith (parsed : Option JVal) (raw : String) :
    List ParsedMessage :=
  match parsed with
  | some (JVal.arr items) =>
    if items.any mkJsonMsgThrows then parsePlainText raw
    else items.map mkJsonMsg
  | _ => parsePlainText raw

/-- The number of non-empty lines carrying a speaker tag. -/
def taggedLineCount (raw : String) : ℕ :=
  (nonEmptyLines raw).countP (fun l => (lineTag l.toList).isSome)

/-- Whether the first line of a list of lines is untagged. -/
def leadingUntaggedL : List String → Bool
  | [] => false
  | l :: _ => (lineTag l.toList).isNone

/-- Whether the first non-empty line of the raw transcript is untagged. -/
def leadingUntagged (raw : String) : Bool :=
  leadingUntaggedL (nonEmptyLines raw)

end SalesCoach

namespace SalesCoach

/-- C1: the composite SPIN score of an assessment is the arithmetic mean of
the seven dimension scores, and on the score map with situation 4,
problem 3, implication 4, need-payoff 3, flow 4, tone 4, engagement 3 it
equals 25/7. -/
theorem calculateCompositeScore_eq_mean :
    (∀ s : AssessmentScores,
      calculateCompositeScore s
        = ((dimensionScores s).sum : ℚ) / ((dimensionScores s).length : ℚ))
    ∧ calculateCompositeScore ⟨4, 3, 4, 3, 4, 4, 3⟩ = 25 / 7 := by
  constructor
  · intro s
    simp [calculateCompositeScore, dimensionScores]
    ring_nf
  · norm_num [calculateCompositeScore]

/-- C2 counterexample: the scoring request the frontend actually sends has
top-level keys `transcript` and `metadata` only; the claimed field names
`transcript_text` and `tenant_id` do not occur, shown on the concrete
request for the transcript "Rep: Hi. Buyer: Hello." with empty metadata. -/
theorem assessRequest_no_tenant_id_field :
    assessRequestKeys ⟨"Rep: Hi. Buyer: Hello.", []⟩ = ["transcript", "metadata"]
    ∧ "transcript_text" ∉ assessRequestKeys ⟨"Rep: Hi. Buyer: Hello.", []⟩
    ∧ "tenant_id" ∉ assessRequestKeys ⟨"Rep: Hi. Buyer: Hello.", []⟩ := by
  refine ⟨rfl, ?_, ?_⟩ <;> decide

/-- C2 amended: the scoring request sent to the assessment service is an
object with fields `transcript` (string) and `metadata` (map of string to
string); the tenant is implied by the authentication token rather than sent
as a field.  A successful call returns an object with fields
`assessment_id`, `scores` and `coaching`. -/
theorem assessRequest_response_shape :
    (∀ r : AssessRequest, assessRequestKeys r = ["transcript", "metadata"])
    ∧ (∀ r : AssessResponse,
        assessResponseKeys r = ["assessment_id", "scores", "coaching"]) := by
  exact ⟨fun r => rfl, fun r => rfl⟩

/-- C4 counterexample: the evaluation run record of the code does not carry
the claimed fields; shown on a concrete run value, its key list lacks
`prompt_version`, `n_samples`, `n_failed` and `macro_averages`, and the
per-dimension metric record uses the key `plus_minus_one_accuracy`, not
`band_accuracy`. -/
theorem evaluationRun_report_shape_counterexample :
    "prompt_version" ∉ evaluationRunKeys
        ⟨"r1", "t1", none, none, 3, none, none, none, [], none, none, none,
          none, "2025-11-06"⟩
    ∧ "n_samples" ∉ evaluationRunKeys
        ⟨"r1", "t1", none, none, 3, none, none, none, [], none, none, none,
          none, "2025-11-06"⟩
    ∧ "n_failed" ∉ evaluationRunKeys
        ⟨"r1", "t1", none, none, 3, none, none, none, [], none, none, none,
          none, "2025-11-06"⟩
    ∧ "macro_averages" ∉ evaluationRunKeys
        ⟨"r1", "t1", none, none, 3, none, none, none, [], none, none, none,
          none, "2025-11-06"⟩
    ∧ "band_accuracy" ∉ dimensionMetricsKeys ⟨1, 1, 1⟩ := by
  refine ⟨?_, ?_, ?_, ?_, ?_⟩ <;> decide

/-- C4 amended: an evaluation run record is an object with fields `id`,
`prompt_template_id`, `dataset_id`, `experiment_name`, `num_examples`,
`macro_pearson_r`, `macro_qwk`, `macro_plus_minus_one`,
`per_dimension_metrics` (a map from dimension name to records with keys
`pearson_r`, `qwk`, `plus_minus_one_accuracy`), `model_name`,
`runtime_seconds`, optional `langsmith_url` and `langsmith_experiment_id`,
and `created_at`: the sample count field is `num_examples`, there is no
failed-example count, the prompt reference is a template id rather than a
version, and the macro averages are three flat nullable fields rather than
one `macro_averages` object. -/
theorem evaluationRun_report_shape :
    (∀ r : EvaluationRun, r.langsmith_url = none →
      r.langsmith_experiment_id = none →
      evaluationRunKeys r
        = ["id", "prompt_template_id", "dataset_id", "experiment_name",
          "num_examples", "macro_pearson_r", "macro_qwk",
          "macro_plus_minus_one", "per_dimension_metrics", "model_name",
          "runtime_seconds", "created_at"])
    ∧ (∀ r : EvaluationRun, "n_failed" ∉ evaluationRunKeys r
        ∧ "n_samples" ∉ evaluationRunKeys r
        ∧ "prompt_version" ∉ evaluationRunKeys r
        ∧ "macro_averages" ∉ evaluationRunKeys r)
    ∧ (∀ m : DimensionMetrics,
        dimensionMetricsKeys m = ["pearson_r", "qwk", "plus_minus_one_accuracy"]) := by
  refine ⟨?_, ?_, fun m => rfl⟩
  · intro r h1 h2
    simp [evaluationRunKeys, evaluationRunJson, h1, h2, optionalStrField]
  · intro r
    refine ⟨?_, ?_, ?_, ?_⟩ <;>
      · simp only [evaluationRunKeys, evaluationRunJson, optionalStrField]
        cases r.langsmith_url <;> cases r.langsmith_experiment_id <;> simp

/-- C3: saving a prompt template fails, persisting nothing, whenever the
user template lacks the placeholder, and every successfully saved template
contains the placeholder, so in steady state rendering never encounters a
template without it. -/
theorem templateSave_requires_placeholder :
    (∀ st : TemplateEditorState,
      strContainsB st.userTemplate "{transcript}" = false →
      ∃ msg, templateEditorHandleSave st = SaveResult.error msg)
    ∧ (∀ (st : TemplateEditorState) (d : PromptTemplateCreate),
        templateEditorHandleSave st = SaveResult.saved d →
        strContainsB d.user_template "{transcript}" = true) := by
  constructor
  · intro st h
    unfold templateEditorHandleSave
    split
    · exact ⟨_, rfl⟩
    split
    · exact ⟨_, rfl⟩
    split
    · exact ⟨_, rfl⟩
    split
    · exact ⟨_, rfl⟩
    · rename_i h4
      simp [h] at h4
  · intro st d h
    unfold templateEditorHandleSave at h
    split at h
    · exact absurd h (by simp)
    split at h
    · exact absurd h (by simp)
    split at h
    · exact absurd h (by simp)
    split at h
    · exact absurd h (by simp)
    · rename_i h4
      cases h
      simpa using h4

/-- C3 witness: a template without the placeholder is rejected, and the
placeholder check evaluated on a concrete saved template. -/
theorem templateSave_requires_placeholder_witness :
    (∃ msg,
      templateEditorHandleSave ⟨"SPIN", "v1", "You are a coach.", "Score it."⟩
        = SaveResult.error msg)
    ∧ strContainsB "Score {transcript} now." "{transcript}" = true :=
  ⟨templateSave_requires_placeholder.1
      ⟨"SPIN", "v1", "You are a coach.", "Score it."⟩ (by decide),
    templateSave_requires_placeholder.2
      ⟨"SPIN", "v1", "You are a coach.", "Score {transcript} now."⟩
      ⟨"SPIN", "v1", "You are a coach.", "Score {transcript} now."⟩
      (by rfl)⟩

/-- C5: editing an existing evaluation dataset changes only the name and
the description; the identity, tenant, source kind, file path, example
count, LangSmith references and creation time are unchanged by every
edit, so the underlying examples are fixed at creation time. -/
theorem datasetEdit_changes_only_name_description :
    ∀ (d : EvaluationDataset) (name : String) (description : Option String),
      (datasetPageEdit d name description).id = d.id
      ∧ (datasetPageEdit d name description).organization_id
          = d.organization_id
      ∧ (datasetPageEdit d name description).source_type = d.source_type
      ∧ (datasetPageEdit d name description).source_path = d.source_path
      ∧ (datasetPageEdit d name description).num_examples = d.num_examples
      ∧ (datasetPageEdit d name description).langsmith_dataset_name
          = d.langsmith_dataset_name
      ∧ (datasetPageEdit d name description).langsmith_dataset_id
          = d.langsmith_dataset_id
      ∧ (datasetPageEdit d name description).created_at = d.created_at
      ∧ (datasetPageEdit d name description).updated_at = d.updated_at
      ∧ (datasetPageEdit d name description).name = name := by
  intro d name description
  simp [datasetPageEdit, applyDatasetUpdate]

/-- C7: the Pearson correlation metric returns exactly 0, not an undefined
value, whenever one of the two equal-length non-empty input arrays has
zero variance; the division is never reached in that case. -/
theorem pearson_zero_variance_returns_zero :
    ∀ xs ys : List ℚ,
      xs.length ≠ 0 → xs.length = ys.length →
      centeredSumSquares xs = 0 ∨ centeredSumSquares ys = 0 →
      pearsonR xs ys = 0 ∧ pearsonMetric xs ys = Except.ok (0 : ℝ) := by
  intro xs ys hne hlen hvar
  have hr : pearsonR xs ys = 0 := by
    unfold pearsonR
    exact if_pos hvar
  refine ⟨hr, ?_⟩
  unfold pearsonMetric
  rw [if_neg, hr]
  push_neg
  exact ⟨hne, hlen⟩

/-- C7 witness: the constant prediction array has zero variance and the
metric evaluates to 0 on it. -/
theorem pearson_zero_variance_returns_zero_witness :
    pearsonR [1, 1, 1] [1, 2, 3] = 0
    ∧ pearsonMetric [1, 1, 1] [1, 2, 3] = Except.ok (0 : ℝ) :=
  pearson_zero_variance_returns_zero [1, 1, 1] [1, 2, 3] (by decide)
    (by decide) (Or.inl (by norm_num [centeredSumSquares, listMean]))

/-- A list of naturals without duplicates in which all members are equal
has at most one member. -/
theorem nodup_all_eq_length_le_one {l : List ℕ} (hnd : l.Nodup) (c : ℕ)
    (hc : ∀ x ∈ l, x = c) : l.length ≤ 1 := by
  match l with
  | [] => simp
  | [a] => simp
  | a :: b :: t =>
    exfalso
    have ha : a = c := hc a (by simp)
    have hb : b = c := hc b (by simp)
    rw [List.nodup_cons] at hnd
    exact hnd.1 (by simp [ha, hb])

/-- Two members of a list with duplicate-free keys that share a key are
the same member. -/
theorem eq_of_key_eq_of_nodup {α : Type} (key : α → ℕ) :
    ∀ {l : List α}, (l.map key).Nodup →
      ∀ {u v : α}, u ∈ l → v ∈ l → key u = key v → u = v := by
  intro l
  induction l with
  | nil => intro _ u v hu; simp at hu
  | cons a t ih =>
    intro hnd u v hu hv hk
    rw [List.map_cons, List.nodup_cons] at hnd
    rcases List.mem_cons.mp hu with rfl | hu2
    · rcases List.mem_cons.mp hv with rfl | hv2
      · rfl
      · exact absurd (hk ▸ List.mem_map_of_mem key hv2) hnd.1
    · rcases List.mem_cons.mp hv with rfl | hv2
      · exact absurd (hk ▸ List.mem_map_of_mem key hu2) hnd.1
      · exact ih hnd.2 hu2 hv2 hk

/-- A predicate satisfied by a member and forcing a fixed key is satisfied
exactly once in a list with duplicate-free keys. -/
theorem countP_eq_one_of_unique_key {α : Type} (key : α → ℕ) (p : α → Bool)
    (l : List α) (t0 : α) (h0 : t0 ∈ l) (hp : p t0 = true)
    (hnd : (l.map key).Nodup)
    (hkey : ∀ t ∈ l, p t = true → key t = key t0) : l.countP p = 1 := by
  rw [List.countP_eq_length_filter]
  have hsub : (l.filter p).Sublist l := List.filter_sublist l
  have hnd2 : ((l.filter p).map key).Nodup :=
    List.Nodup.sublist (List.Sublist.map key hsub) hnd
  have hall : ∀ x ∈ (l.filter p).map key, x = key t0 := by
    intro x hx
    rcases List.mem_map.mp hx with ⟨t, ht, rfl⟩
    rcases List.mem_filter.mp ht with ⟨htl, htp⟩
    exact hkey t htl htp
  have hle : (l.filter p).length ≤ 1 := by
    have := nodup_all_eq_length_le_one hnd2 (key t0) hall
    simpa using this
  have hge : 0 < (l.filter p).length :=
    List.length_pos.mpr (List.ne_nil_of_mem (List.mem_filter.mpr ⟨h0, hp⟩))
  omega

/-- C6: with template ids unique and exactly one active template for the
tenant, activating an inactive template of that tenant leaves the tenant
with exactly one active template and switches exactly one template, the
previously active one, from active to inactive. -/
theorem activateTemplate_deactivates_exactly_one :
    ∀ (store : List PromptTemplateRec) (org target : ℕ),
      (store.map PromptTemplateRec.id).Nodup →
      countActive store org = 1 →
      (∃ t0 ∈ store, t0.organization_id = org ∧ t0.id = target
        ∧ t0.is_active = false) →
      countActive (activateTemplate store org target) org = 1
      ∧ deactivatedCount store org target = 1
      ∧ (∀ t : PromptTemplateRec,
          (t.is_active = true ∧ (activateStep org target t).is_active = false)
          ↔ (t.organization_id = org ∧ t.is_active = true ∧ t.id ≠ target)) := by
  intro store org target hnd hone hex
  rcases hex with ⟨t0, ht0, horg0, hid0, hact0⟩
  refine ⟨?_, ?_, ?_⟩
  · unfold countActive activateTemplate
    rw [List.countP_map]
    have hcongr : store.countP
        ((fun t => t.organization_id == org && t.is_active)
          ∘ activateStep org target)
        = store.countP
          (fun t => t.organization_id == org && t.id == target) := by
      apply List.countP_congr
      intro t _
      by_cases h : t.organization_id = org <;>
        simp [activateStep, h]
    rw [hcongr]
    refine countP_eq_one_of_unique_key PromptTemplateRec.id _ store t0 ht0
      (by simp [horg0, hid0]) hnd ?_
    intro t _ hp
    rw [Bool.and_eq_true, beq_iff_eq, beq_iff_eq] at hp
    rw [hp.2, hid0]
  · unfold deactivatedCount
    have hle : store.countP
        (fun t => t.organization_id == org && t.is_active && !(t.id == target))
        ≤ store.countP (fun t => t.organization_id == org && t.is_active) := by
      apply List.countP_mono_left
      intro t _ h
      rw [Bool.and_eq_true] at h
      exact h.1
    have hone2 : store.countP
        (fun t => t.organization_id == org && t.is_active) = 1 := hone
    have hpos : 0 < store.countP
        (fun t => t.organization_id == org && t.is_active && !(t.id == target)) := by
      have : 0 < store.countP
          (fun t => t.organization_id == org && t.is_active) := by omega
      rcases List.countP_pos_iff.mp this with ⟨u, hu, hup⟩
      rw [Bool.and_eq_true, beq_iff_eq] at hup
      have huid : u.id ≠ target := by
        intro hcontra
        have : u = t0 := eq_of_key_eq_of_nodup PromptTemplateRec.id hnd hu ht0
          (by rw [hcontra, hid0])
        rw [this] at hup
        rw [hup.2] at hact0
        simp at hact0
      apply List.countP_pos_iff.mpr
      refine ⟨u, hu, ?_⟩
      simp [hup.1, hup.2, huid]
    omega
  · intro t
    by_cases h : t.organization_id = org <;> simp [activateStep, h]

/-- C6 witness: a tenant with three templates, the first active; activating
the second leaves exactly one active template and deactivates exactly
one. -/
theorem activateTemplate_deactivates_exactly_one_witness :
    countActive
        (activateTemplate [⟨1, 0, true⟩, ⟨2, 0, false⟩, ⟨3, 0, false⟩] 0 2) 0 = 1
    ∧ deactivatedCount [⟨1, 0, true⟩, ⟨2, 0, false⟩, ⟨3, 0, false⟩] 0 2 = 1 :=
  ⟨(activateTemplate_deactivates_exactly_one
      [⟨1, 0, true⟩, ⟨2, 0, false⟩, ⟨3, 0, false⟩] 0 2 (by decide) (by decide)
      (by decide)).1,
    (activateTemplate_deactivates_exactly_one
      [⟨1, 0, true⟩, ⟨2, 0, false⟩, ⟨3, 0, false⟩] 0 2 (by decide) (by decide)
      (by decide)).2.1⟩

/-- The descending comparator is transitive. -/
theorem byCreatedAtDesc_trans (a b c : AssessmentRec)
    (h1 : byCreatedAtDesc a b = true) (h2 : byCreatedAtDesc b c = true) :
    byCreatedAtDesc a c = true := by
  simp [byCreatedAtDesc] at h1 h2 ⊢
  omega

/-- The descending comparator is total. -/
theorem byCreatedAtDesc_total (a b : AssessmentRec) :
    (byCreatedAtDesc a b || byCreatedAtDesc b a) = true := by
  simp [byCreatedAtDesc]
  omega

/-- C8: when a transcript has at least one assessment, the detail page
selects an assessment carrying the maximum creation timestamp among all
assessments fetched for the transcript: it sorts by timestamp descending
and shows the head of the result. -/
theorem selectLatestAssessment_is_max :
    ∀ l : List AssessmentRec, l ≠ [] →
      ∃ m, selectLatestAssessment l = some m ∧ m ∈ l
        ∧ ∀ a ∈ l, a.created_at ≤ m.created_at := by
  intro l hne
  have hperm : (l.mergeSort byCreatedAtDesc).Perm l :=
    List.mergeSort_perm l byCreatedAtDesc
  have hsorted := List.sorted_mergeSort byCreatedAtDesc_trans
    byCreatedAtDesc_total l
  have hne2 : l.mergeSort byCreatedAtDesc ≠ [] := by
    intro h
    rw [h] at hperm
    exact hne (List.Perm.eq_nil hperm.symm)
  match hms : l.mergeSort byCreatedAtDesc with
  | [] => exact absurd hms hne2
  | m :: rest =>
    refine ⟨m, ?_, ?_, ?_⟩
    · unfold selectLatestAssessment sortAssessmentsDesc
      rw [hms]
      rfl
    · exact hperm.mem_iff.mp (by rw [hms]; exact List.mem_cons_self m rest)
    · intro a ha
      have ha2 : a ∈ m :: rest := by
        rw [← hms]
        exact hperm.mem_iff.mpr ha
      rcases List.mem_cons.mp ha2 with rfl | ha3
      · exact le_refl _
      · rw [hms] at hsorted
        have := (List.pairwise_cons.mp hsorted).1 a ha3
        simpa [byCreatedAtDesc] using this

/-- C8 witness: on two assessments of one transcript the page selects the
one with the larger timestamp. -/
theorem selectLatestAssessment_is_max_witness :
    ∃ m, selectLatestAssessment
        [⟨1, ⟨1, 1, 1, 1, 1, 1, 1⟩, 100⟩, ⟨1, ⟨2, 2, 2, 2, 2, 2, 2⟩, 200⟩]
      = some m
      ∧ m ∈ [⟨1, ⟨1, 1, 1, 1, 1, 1, 1⟩, 100⟩, ⟨1, ⟨2, 2, 2, 2, 2, 2, 2⟩, 200⟩]
      ∧ ∀ a ∈ ([⟨1, ⟨1, 1, 1, 1, 1, 1, 1⟩, 100⟩,
          ⟨1, ⟨2, 2, 2, 2, 2, 2, 2⟩, 200⟩] : List AssessmentRec),
          a.created_at ≤ m.created_at :=
  selectLatestAssessment_is_max
    [⟨1, ⟨1, 1, 1, 1, 1, 1, 1⟩, 100⟩, ⟨1, ⟨2, 2, 2, 2, 2, 2, 2⟩, 200⟩]
    (by decide)

/-- C9: the queue count of a representative equals the number of
assessments attached to any of the representative's transcripts whose
composite score is strictly below 3; every such assessment is counted, not
only the latest per transcript, shown by the second conjunct where two
assessments of the same transcript both count. -/
theorem queueCount_counts_every_low_assessment :
    (∀ (repId : String) (ts : List TranscriptRec)
        (assessments : List AssessmentRec),
      queueCount repId ts assessments
        = assessments.countP (fun a =>
            decide ((∃ t ∈ ts, t.representative_id = some repId
                ∧ t.id = a.transcript_id)
              ∧ calculateCompositeScore a.scores < 3)))
    ∧ queueCount "r1" [⟨1, some "r1"⟩]
        [⟨1, ⟨1, 1, 1, 1, 1, 1, 1⟩, 100⟩, ⟨1, ⟨2, 2, 2, 2, 2, 2, 2⟩, 200⟩]
      = 2 := by
  constructor
  · intro repId ts assessments
    unfold queueCount repAssessmentsFor repTranscriptsFor QUEUE_THRESHOLD
    rw [← List.countP_eq_length_filter, List.countP_filter]
    apply List.countP_congr
    intro a _
    simp only [Bool.and_eq_true, decide_eq_true_eq, List.any_eq_true,
      List.mem_filter, beq_iff_eq]
    constructor
    · rintro ⟨hscore, t, ⟨htmem, hrep⟩, hid⟩
      exact ⟨⟨t, htmem, hrep, hid⟩, hscore⟩
    · rintro ⟨⟨t, htmem, hrep, hid⟩, hscore⟩
      exact ⟨hscore, t, ⟨htmem, hrep⟩, hid⟩
  · have h1 : calculateCompositeScore ⟨1, 1, 1, 1, 1, 1, 1⟩ < QUEUE_THRESHOLD := by
      norm_num [calculateCompositeScore, QUEUE_THRESHOLD]
    have h2 : calculateCompositeScore ⟨2, 2, 2, 2, 2, 2, 2⟩ < QUEUE_THRESHOLD := by
      norm_num [calculateCompositeScore, QUEUE_THRESHOLD]
    simp [queueCount, repAssessmentsFor, repTranscriptsFor, List.filter,
      decide_eq_true h1, decide_eq_true h2]

/-- Continuing the last message never changes the number of messages. -/
theorem appendToLastText_length :
    ∀ (msgs : List ParsedMessage) (s : String),
      (appendToLastText msgs s).length = msgs.length := by
  intro msgs s
  induction msgs with
  | nil => rfl
  | cons m rest ih =>
    cases rest with
    | nil => rfl
    | cons m2 rest2 =>
      show (m :: appendToLastText (m2 :: rest2) s).length = _
      simp only [List.length_cons]
      rw [ih]
      simp

/-- Continuing the last message rewrites exactly the last message: every
earlier message is untouched and the last one gets the chunk appended to
its text. -/
theorem appendToLastText_append_singleton :
    ∀ (pre : List ParsedMessage) (m : ParsedMessage) (s : String),
      appendToLastText (pre ++ [m]) s
        = pre ++ [{ m with text := jvalAppendStr m.text s }] := by
  intro pre
  induction pre with
  | nil => intro m s; rfl
  | cons p pre2 ih =>
    intro m s
    cases hx : pre2 ++ [m] with
    | nil => exact absurd hx (by simp)
    | cons y ys =>
      show appendToLastText (p :: (pre2 ++ [m])) s = _
      rw [hx]
      show p :: appendToLastText (y :: ys) s = _
      rw [← hx, ih]
      rfl

/-- Length of the plain-text loop result: one message per tagged line, one
extra message when the loop starts with no accumulated message and the
first line is untagged. -/
theorem processLines_length_eq :
    ∀ (ls : List String) (msgs : List ParsedMessage),
      (∀ l ∈ ls, jsTrim l ≠ "") →
      (processLines ls msgs).length
        = msgs.length + ls.countP (fun l => (lineTag l.toList).isSome)
          + (if msgs.isEmpty && leadingUntaggedL ls then 1 else 0) := by
  intro ls
  induction ls with
  | nil =>
    intro msgs _
    simp [processLines, leadingUntaggedL]
  | cons line rest ih =>
    intro msgs h
    have hline : jsTrim line ≠ "" := h line (List.mem_cons_self line rest)
    have hrest : ∀ l ∈ rest, jsTrim l ≠ "" :=
      fun l hl => h l (List.mem_cons_of_mem line hl)
    cases htag : lineTag line.toList with
    | some pr =>
      obtain ⟨sp, txt⟩ := pr
      have htag2 : lineTag line.data = some (sp, txt) := htag
      have hstep : processLines (line :: rest) msgs
          = processLines rest (msgs ++ [mkTaggedMsg sp txt]) := by
        simp only [processLines, htag]
      rw [hstep, ih _ hrest]
      simp [leadingUntaggedL, htag, htag2, List.countP_cons]
      omega
    | none =>
      have htag2 : lineTag line.data = none := htag
      cases msgs with
      | nil =>
        have hstep : processLines (line :: rest) ([] : List ParsedMessage)
            = processLines rest
                [⟨JVal.str "Unknown", JVal.str (jsTrim line), false⟩] := by
          simp only [processLines, htag, if_neg hline]
        rw [hstep, ih _ hrest]
        simp [leadingUntaggedL, htag, htag2, List.countP_cons]
        omega
      | cons m ms =>
        have hstep : processLines (line :: rest) (m :: ms)
            = processLines rest
                (appendToLastText (m :: ms) (" " ++ jsTrim line)) := by
          simp only [processLines, htag, if_neg hline]
        rw [hstep, ih _ hrest]
        have hlen := appendToLastText_length (m :: ms) (" " ++ jsTrim line)
        have hne2 : appendToLastText (m :: ms) (" " ++ jsTrim line) ≠ [] := by
          intro hx
          rw [hx] at hlen
          simp at hlen
        have hempty : (appendToLastText (m :: ms) (" " ++ jsTrim line)).isEmpty
            = false := by
          cases hxx : appendToLastText (m :: ms) (" " ++ jsTrim line) with
          | nil => exact absurd hxx hne2
          | cons a b => rfl
        simp [leadingUntaggedL, htag, htag2, List.countP_cons, hempty, hlen]

/-- C10 counterexample: the claim says untagged lines are appended to the
preceding message, so an input with no tagged line would yield no
messages; on the input "hello" the parser instead opens a fresh message
with speaker "Unknown". -/
theorem parseTranscript_untagged_counterexample :
    parseTranscriptWith none "hello"
      = [⟨JVal.str "Unknown", JVal.str "hello", false⟩]
    ∧ taggedLineCount "hello" = 0 := by
  constructor <;> rfl

/-- C10 amended: the parser is total by construction; a JSON-array input
whose elements do not make the map callback throw yields exactly one
message per element; in the plain-text branch the number of messages is
the number of tagged lines, plus one opening "Unknown" message exactly
when the first non-empty line is untagged; the rep flag of a tagged line
holds exactly when the lowercased speaker contains "rep" or "sales"; and
continuing an untagged line rewrites only the last accumulated message,
appending to its text. -/
theorem parseTranscript_branch_behavior :
    (∀ (items : List JVal) (raw : String),
      items.all (fun it => !mkJsonMsgThrows it) = true →
      parseTranscriptWith (some (JVal.arr items)) raw = items.map mkJsonMsg)
    ∧ (∀ raw : String,
        (parsePlainText raw).length
          = taggedLineCount raw + (if leadingUntagged raw then 1 else 0))
    ∧ (∀ sp : String,
        isRepSpeaker sp = true
          ↔ (List.IsInfix "rep".toList (jsToLower sp).toList
            ∨ List.IsInfix "sales".toList (jsToLower sp).toList))
    ∧ (∀ (pre : List ParsedMessage) (m : ParsedMessage) (s : String),
        appendToLastText (pre ++ [m]) s
          = pre ++ [{ m with text := jvalAppendStr m.text s }]) := by
  refine ⟨?_, ?_, ?_, appendToLastText_append_singleton⟩
  · intro items raw h
    have hany : items.any mkJsonMsgThrows = false := by
      rw [List.any_eq_false]
      intro it hit
      have := List.all_eq_true.mp h it hit
      simpa using this
    show (if items.any mkJsonMsgThrows then parsePlainText raw
        else items.map mkJsonMsg) = items.map mkJsonMsg
    rw [hany]
    rfl
  · intro raw
    show (processLines (nonEmptyLines raw) []).length = _
    rw [processLines_length_eq (nonEmptyLines raw) []]
    · simp [taggedLineCount, leadingUntagged]
    · intro l hl
      have := (List.mem_filter.mp hl).2
      simpa using this
  · intro sp
    simp [isRepSpeaker, strContainsB]

/-- C10 amended witness: the JSON-branch equation applied to a concrete
one-element array whose callback does not throw. -/
theorem parseTranscript_branch_behavior_witness :
    ([JVal.obj [("speaker", JVal.str "Rep"), ("text", JVal.str "Hi")]].all
        (fun it => !mkJsonMsgThrows it) = true)
    ∧ parseTranscriptWith
        (some (JVal.arr
          [JVal.obj [("speaker", JVal.str "Rep"), ("text", JVal.str "Hi")]]))
        "raw text"
      = [JVal.obj [("speaker", JVal.str "Rep"), ("text", JVal.str "Hi")]].map
          mkJsonMsg :=
  ⟨by rfl,
    parseTranscript_branch_behavior.1
      [JVal.obj [("speaker", JVal.str "Rep"), ("text", JVal.str "Hi")]]
      "raw text" (by rfl)⟩

/-- C4 amended witness: the key-list equation evaluated on a concrete run
record with no LangSmith fields. -/
theorem evaluationRun_report_shape_witness :
    evaluationRunKeys
        ⟨"r1", "t1", none, none, 3, none, none, none, [], none, none, none,
          none, "2025-11-06"⟩
      = ["id", "prompt_template_id", "dataset_id", "experiment_name",
        "num_examples", "macro_pearson_r", "macro_qwk",
        "macro_plus_minus_one", "per_dimension_metrics", "model_name",
        "runtime_seconds", "created_at"] :=
  evaluationRun_report_shape.1
    ⟨"r1", "t1", none, none, 3, none, none, none, [], none, none, none,
      none, "2025-11-06"⟩ rfl rfl

end SalesCoach
